import Mathlib

/-
Verification development for the RoadScript dual-source standards
resolution subsystem.  Each definition is a shallow embedding of the
corresponding Python function; Python floats and JSON numbers are
modelled as exact rationals, Python strings as Lean `String`
(lines as `List Char` where character-level regex scanning matters),
and dictionaries as association lists or structures matching the
shapes the program actually constructs.  Logging side effects are
omitted: they do not influence any returned value.
-/

namespace RoadScript

/-! ## Generic helpers (dict lookup, sorting) -/

/-- Association-list lookup, modelling Python `dict[key]` / `dict.get(key)`. -/
def lookupKey {α β : Type} [DecidableEq α] : List (α × β) → α → Option β
  | [], _ => none
  | (k, v) :: rest, key => if k = key then some v else lookupKey rest key

/-- Insert into a sorted list of naturals, keeping ascending order. -/
def insertNat (n : ℕ) : List ℕ → List ℕ
  | [] => [n]
  | m :: ms => if n ≤ m then n :: m :: ms else m :: insertNat n ms

/-- Ascending insertion sort, modelling Python `sorted` over `int` keys. -/
def sortNat : List ℕ → List ℕ
  | [] => []
  | n :: ns => insertNat n (sortNat ns)

/-! ## roadscript/ai/chunking.py -/

/-- The `while start < len(words)` loop body of `chunk_text`.  The loop has
no syntactic termination bound, so the embedding takes explicit fuel
(one unit per iteration) and returns `none` when fuel runs out: a
`none` for every fuel amount means the Python loop never terminates.
`end - overlap` on naturals is exactly Python's `max(0, end - overlap)`. -/
def chunkLoop (words : List String) (chunkSize overlap : ℕ) :
    ℕ → ℕ → Option (List String)
  | 0, _ => none
  | fuel + 1, start =>
    if start < words.length then
      let e := min (start + chunkSize) words.length
      let chunkWords := (words.drop start).take (e - start)
      if e = words.length then
        some [String.intercalate " " chunkWords]
      else
        match chunkLoop words chunkSize overlap fuel (e - overlap) with
        | none => none
        | some rest => some (String.intercalate " " chunkWords :: rest)
    else
      some []

/-- Helper for Python `text.split()`: accumulate the current word
(reversed) and break on whitespace, never emitting empty words. -/
def pySplitAux (cur : List Char) : List Char → List String
  | [] => if cur = [] then [] else [cur.reverse.asString]
  | c :: cs =>
    if c.isWhitespace then
      if cur = [] then pySplitAux [] cs
      else cur.reverse.asString :: pySplitAux [] cs
    else pySplitAux (c :: cur) cs

/-- Python `text.split()` with no argument: split on whitespace runs,
dropping empty pieces. -/
def pySplitWhitespace (text : String) : List String :=
  pySplitAux [] text.data

/-- Embeds `chunk_text(text, chunk_size, overlap)`: `text.split()` splits on
whitespace runs and drops empty pieces; empty word list returns `[]`. -/
def chunkText (fuel : ℕ) (text : String) (chunkSize overlap : ℕ) :
    Option (List String) :=
  let words := pySplitWhitespace text
  if words = [] then some [] else chunkLoop words chunkSize overlap fuel 0

/-! ## `_get_adt_category` (two identical copies in the source:
`StandardsService._get_adt_category` and
`ClearZoneCalculator._get_adt_category`) -/

/-- Embeds `StandardsService._get_adt_category(adt)`. -/
def getAdtCategory (adt : ℤ) : String :=
  if adt < 750 then "<750"
  else if adt < 1500 then "750-1500"
  else if adt ≤ 6000 then "1500-6000"
  else ">6000"

/-- Embeds `ClearZoneCalculator._get_adt_category(adt)` (verbatim duplicate of the
service's version). -/
def czGetAdtCategory (adt : ℤ) : String :=
  if adt < 750 then "<750"
  else if adt < 1500 then "750-1500"
  else if adt ≤ 6000 then "1500-6000"
  else ">6000"

/-! ## roadscript/ai/query_engine.py — deterministic extraction helpers

`_extract_speed_values` works with two regular expressions on each line
of each snippet: `\b<speed>\b` (search) and `\d+(?:\.\d+)?` (findall).
They are embedded as character-level scanners over `List Char`.
Numeric tokens are interpreted as exact decimals (`float(token)` and
`int(float(token))` on a `\d+(?:\.\d+)?` token read off the decimal
digits exactly). -/

/-- Python's regex word character `\w` on the ASCII inputs in play:
letters, digits, underscore. -/
def isWordCharPy (c : Char) : Bool :=
  c.isAlphanum || c = '_'

/-- Does `w` occur literally at the head of `s`? -/
def listPrefixEq : List Char → List Char → Bool
  | [], _ => true
  | _ :: _, [] => false
  | c :: cs, d :: ds => c = d && listPrefixEq cs ds

/-- Word-boundary condition on the character preceding a match
(start of line, or a non-word character). -/
def boundaryBefore : Option Char → Bool
  | none => true
  | some p => !isWordCharPy p

/-- Word-boundary condition on the character following a match
(end of line, or a non-word character). -/
def boundaryAfter : List Char → Bool
  | [] => true
  | c :: _ => !isWordCharPy c

/-- Scan helper for `re.search(r"\b" + digits + r"\b", line)`:
`prev` is the character just before the current position. -/
def containsWordFrom (w : List Char) : Option Char → List Char → Bool
  | _, [] => false
  | prev, c :: cs =>
    (listPrefixEq w (c :: cs) && boundaryBefore prev
      && boundaryAfter ((c :: cs).drop w.length))
    || containsWordFrom w (some c) cs

/-- Embeds `pattern.search(line)` for `pattern = re.compile(r"\b<digits>\b")`. -/
def containsStandalone (w line : List Char) : Bool :=
  containsWordFrom w none line

/-- Scanner state for `re.findall(r"\d+(?:\.\d+)?", line)`: outside a
number, inside the integer digits (held reversed), just past a `.`
whose fractional digit has not yet been seen, or inside the fractional
digits (held reversed, including the dot). -/
inductive ScanState : Type
  | idle : ScanState
  | inInt (cur : List Char) : ScanState
  | pendingDot (cur : List Char) : ScanState
  | inFrac (cur : List Char) : ScanState

/-- Token emitted when the input ends in a given scanner state
(a trailing `12.` yields the token `12`, as the regex requires a digit
after the dot). -/
def scanFinish : ScanState → List (List Char)
  | .idle => []
  | .inInt cur => [cur.reverse]
  | .pendingDot cur => [cur.reverse]
  | .inFrac cur => [cur.reverse]

/-- One-character-per-step scanner equivalent to the left-to-right,
non-overlapping, greedy matching of `re.findall(r"\d+(?:\.\d+)?", ·)`. -/
def scanNum : ScanState → List Char → List (List Char)
  | st, [] => scanFinish st
  | .idle, c :: cs =>
    if c.isDigit then scanNum (.inInt [c]) cs else scanNum .idle cs
  | .inInt cur, c :: cs =>
    if c.isDigit then scanNum (.inInt (c :: cur)) cs
    else if c = '.' then scanNum (.pendingDot cur) cs
    else cur.reverse :: scanNum .idle cs
  | .pendingDot cur, c :: cs =>
    if c.isDigit then scanNum (.inFrac (c :: '.' :: cur)) cs
    else cur.reverse :: scanNum .idle cs
  | .inFrac cur, c :: cs =>
    if c.isDigit then scanNum (.inFrac (c :: cur)) cs
    else cur.reverse :: scanNum .idle cs

/-- Embeds `re.findall(r"\d+(?:\.\d+)?", line)`. -/
def findNumTokens (line : List Char) : List (List Char) :=
  scanNum .idle line

/-- Decimal value of a digit string. -/
def natOfDigits (ds : List Char) : ℕ :=
  ds.foldl (fun a c => 10 * a + (c.toNat - 48)) 0

/-- Embeds `int(float(token))` for a `\d+(?:\.\d+)?` token: float conversion of
the decimal followed by truncation keeps exactly the digits before the
dot. -/
def tokenIntPart (t : List Char) : ℕ :=
  natOfDigits (t.takeWhile Char.isDigit)

/-- Embeds `float(token)` for a `\d+(?:\.\d+)?` token, as an exact rational. -/
def tokenToRat (t : List Char) : ℚ :=
  let ip := t.takeWhile Char.isDigit
  let rest := t.dropWhile Char.isDigit
  (natOfDigits ip : ℚ) +
    match rest with
    | '.' :: fs => (natOfDigits fs : ℚ) / ((10 : ℚ) ^ fs.length)
    | _ => 0

/-- Decimal digit characters of a natural number (`str(speed)`);
fuel-based so it reduces structurally. -/
def natDigitsAux : ℕ → ℕ → List Char
  | 0, _ => []
  | fuel + 1, n =>
    if n < 10 then [Char.ofNat (48 + n)]
    else natDigitsAux fuel (n / 10) ++ [Char.ofNat (48 + n % 10)]

/-- Embeds `str(n)` for a natural number. -/
def natDigits (n : ℕ) : List Char :=
  natDigitsAux (n + 1) n

/-- Split on the newline character, mirroring `str.splitlines()` for
`\n`-separated text (a trailing newline produces no trailing empty
line). -/
def splitOnNL : List Char → List (List Char)
  | [] => [[]]
  | c :: cs =>
    if c = '\n' then [] :: splitOnNL cs
    else
      match splitOnNL cs with
      | [] => [[c]]
      | l :: ls => (c :: l) :: ls

/-- Embeds `text.splitlines()` (for `\n` line breaks): empty text has no lines,
and a final `\n` does not open a trailing empty line. -/
def splitlinesPy (s : List Char) : List (List Char) :=
  match s with
  | [] => []
  | _ =>
    let ls := splitOnNL s
    if s.getLast? = some '\n' then ls.dropLast else ls

/-- The per-line body of the `for line in snippet.text.splitlines()` loop
of `_extract_speed_values`: skip the line unless `\b<speed>\b` matches;
collect the numeric tokens; skip if there are none, if
`int(float(tokens[0])) != speed`, or if fewer than `value_count + 1`
tokens; otherwise return `tokens[1:value_count+1]` as floats. -/
def processLine (speed valueCount : ℕ) (line : List Char) : Option (List ℚ) :=
  if !containsStandalone (natDigits speed) line then none
  else
    match findNumTokens line with
    | [] => none
    | t0 :: ts =>
      if tokenIntPart t0 ≠ speed then none
      else if (t0 :: ts).length < valueCount + 1 then none
      else some ((ts.take valueCount).map tokenToRat)

/-- Inner loop of `_extract_speed_values`: first line that yields values
wins. -/
def linesFirst (speed valueCount : ℕ) : List (List Char) → Option (List ℚ)
  | [] => none
  | l :: ls =>
    match processLine speed valueCount l with
    | some v => some v
    | none => linesFirst speed valueCount ls

/-- Embeds `_extract_speed_values(snippets, speed, value_count)`: snippets are
represented by their `text` fields. -/
def extractSpeedValues (speed valueCount : ℕ) :
    List (List Char) → Option (List ℚ)
  | [] => none
  | s :: rest =>
    match linesFirst speed valueCount (splitlinesPy s) with
    | some v => some v
    | none => extractSpeedValues speed valueCount rest

/-! ## JSON values and Python float conversion

`json.loads` output is modelled by `JVal`; `float(x)` on such a value
either produces a rational or raises (`TypeError` for `None`, lists and
objects; `ValueError` for unparseable strings). -/

/-- A decoded JSON value. -/
inductive JVal : Type
  | jnull : JVal
  | jbool (b : Bool) : JVal
  | jnum (q : ℚ) : JVal
  | jstr (s : String) : JVal
  | jarr (xs : List JVal) : JVal
  | jobj (fields : List (String × JVal)) : JVal

/-- Python runtime errors relevant here. -/
inductive PyError : Type
  | typeError : PyError
  | valueError : PyError
deriving DecidableEq

/-- Embeds `dict.get(key)` on a JSON object: `None` (here `none`) when the value
is not an object or the key is absent. -/
def objGet (v : JVal) (key : String) : Option JVal :=
  match v with
  | .jobj fields => lookupKey fields key
  | _ => none

/-- Embeds `float(s)` on a string: an optional sign followed by decimal digits
with an optional fractional part (the sign/decimal core of Python's
grammar; the exponent, `inf`/`nan` and surrounding-whitespace forms do
not occur in the inputs exercised here). -/
def parseFloatStr (s : String) : Option ℚ :=
  let core : List Char → Option ℚ := fun cs =>
    let ip := cs.takeWhile Char.isDigit
    let rest := cs.dropWhile Char.isDigit
    match rest with
    | [] => if ip = [] then none else some (natOfDigits ip : ℚ)
    | '.' :: fs =>
      if fs.all Char.isDigit ∧ (ip ≠ [] ∨ fs ≠ []) then
        some ((natOfDigits ip : ℚ) + (natOfDigits fs : ℚ) / (10 : ℚ) ^ fs.length)
      else none
    | _ => none
  match s.data with
  | '-' :: cs => (core cs).map (fun q => -q)
  | '+' :: cs => core cs
  | cs => core cs

/-- Embeds `float(v)` on a decoded JSON value, raising on non-convertible
shapes. -/
def pyFloatE (v : JVal) : Except PyError ℚ :=
  match v with
  | .jnum q => .ok q
  | .jbool b => .ok (if b then 1 else 0)
  | .jstr s =>
    match parseFloatStr s with
    | some q => .ok q
    | none => .error .valueError
  | _ => .error .typeError

/-- Embeds `float(v)` as an option (used by `_safe_float`, which catches
`TypeError` and `ValueError`). -/
def pyFloatOpt (v : JVal) : Option ℚ :=
  match pyFloatE v with
  | .ok q => some q
  | .error _ => none

/-- Embeds `_safe_float(rag_value.get(key))`: a missing key gives `None`, whose
`float` raises `TypeError`, which `_safe_float` turns into `None`. -/
def safeFloat (v : Option JVal) : Option ℚ :=
  v.bind pyFloatOpt

/-- Embeds `[float(val) for val in vs]`, propagating the first conversion
error. -/
def floatListE : List JVal → Except PyError (List ℚ)
  | [] => .ok []
  | v :: vs =>
    match pyFloatE v with
    | .error e => .error e
    | .ok q =>
      match floatListE vs with
      | .error e => .error e
      | .ok qs => .ok (q :: qs)

/-- Python truthiness of a decoded JSON value (`if rag_result.raw:`,
`bool(rag_value.get("asterisk", False))`). -/
def jTruthy : JVal → Bool
  | .jnull => false
  | .jbool b => b
  | .jnum q => q ≠ 0
  | .jstr s => s ≠ ""
  | .jarr xs => !xs.isEmpty
  | .jobj fields => !fields.isEmpty

/-! ## roadscript/ai/query_engine.py and cache.py — the query path -/

/-- A retrieved snippet (`Snippet` dataclass): metadata is the
string-valued mapping the citations read `source` from. -/
structure Snippet : Type where
  text : String
  metadata : List (String × String)
  distance : ℚ

/-- A `QueryResult` dataclass.  The cache stores `result.as_dict()` and
rebuilds the result field-by-field, so the same structure serves as the
cached payload: every payload the program writes is a four-key (truthy)
dict, so `if cached:` is a plain presence test in this model. -/
structure QueryResult : Type where
  values : Option (List ℚ)
  method : String
  snippets : List Snippet
  raw : Option JVal

/-- Embeds `build_cache_key(*parts)` hashes the concatenation of the parts
(`hasher.update(part)` per part); SHA-256 is modelled as injective on
byte strings, so the key is the concatenation itself.  Note the parts
are not delimited, exactly as in the source. -/
def buildCacheKey (parts : List String) : String :=
  String.join parts

/-- The query cache contents (`QueryCache._cache`), key to payload. -/
def Cache : Type := List (String × QueryResult)

/-- Embeds `QueryCache.get(key)`. -/
def cacheGet (c : Cache) (key : String) : Option QueryResult :=
  lookupKey c key

/-- Embeds `QueryCache.set(key, payload)` followed by the (modelled-away)
immediate save; lookup sees the newest binding, as in a dict update. -/
def cacheSet (c : Cache) (key : String) (payload : QueryResult) : Cache :=
  (key, payload) :: c

/-- Outcome of one `query_speed_value` call: the returned value, the
cache afterwards, and whether retrieval and the language model were
invoked. -/
structure QSVOutcome : Type where
  result : Option QueryResult
  cache : Cache
  didRetrieve : Bool
  didLLM : Bool

/-- The `method="miss"` payload cached for a failed extraction. -/
def missPayload : QueryResult :=
  ⟨none, "miss", [], none⟩

/-- Embeds `QueryEngine.query_speed_value(query, speed, value_count, top_k,
allow_llm)`.  The surrounding object state is passed explicitly:
`cache` is the query cache, `retrieved` the snippets
`self.retrieve(query, top_k)` would return on a cache miss, and `llm`
the JSON object the configured model client would return for the built
prompt (`none` when no client is configured).  The call can raise:
`float(val)` in the fallback's list comprehension is unguarded. -/
def querySpeedValue (cache : Cache) (retrieved : List Snippet)
    (llm : Option JVal) (query : String) (speed valueCount : ℕ)
    (allowLLM : Bool) : Except PyError QSVOutcome :=
  let cacheKey := buildCacheKey [query, (natDigits speed).asString,
    (natDigits valueCount).asString]
  match cacheGet cache cacheKey with
  | some cached =>
    .ok ⟨some ⟨cached.values, cached.method, cached.snippets, cached.raw⟩,
      cache, false, false⟩
  | none =>
    let snippets := retrieved
    match extractSpeedValues speed valueCount (snippets.map (·.text.data)) with
    | some values =>
      let result : QueryResult := ⟨some values, "regex", snippets, none⟩
      .ok ⟨some result, cacheSet cache cacheKey result, true, false⟩
    | none =>
      match (if allowLLM then llm else none) with
      | some raw =>
        match objGet raw "values" with
        | some (.jarr vs) =>
          if valueCount ≤ vs.length then
            match floatListE (vs.take valueCount) with
            | .error e => .error e
            | .ok casted =>
              let result : QueryResult := ⟨some casted, "llm", snippets, some raw⟩
              .ok ⟨some result, cacheSet cache cacheKey result, true, true⟩
          else .ok ⟨none, cacheSet cache cacheKey missPayload, true, true⟩
        | _ => .ok ⟨none, cacheSet cache cacheKey missPayload, true, true⟩
      | none => .ok ⟨none, cacheSet cache cacheKey missPayload, true, false⟩

/-! ## roadscript/standards/service.py

The loader's tables and the query engine's responses are passed as
explicit parameters: the tables are the JSON the singleton loader
serves, and an `Option (Option QueryResult)` stands for the optional
engine (`none` = no engine configured) together with the value its
query call would return. -/

/-- A citation entry built by `_build_citation`. -/
structure Citation : Type where
  source : Option String
  excerpt : String

/-- Embeds `_build_citation(rag_result)`: first two snippets, 400-character
excerpts. -/
def buildCitation (r : QueryResult) : List Citation :=
  (r.snippets.take 2).map fun s =>
    ⟨lookupKey s.metadata "source", s.text.take 400⟩

/-- Verification record for scalar facts: `{"structured_value": ...,
"method": ...}`, later updated with `"rag_value"`. -/
structure ScalarVerification : Type where
  structuredValue : ℚ
  ragValue : Option ℚ
  method : String

/-- Embeds `StandardValue` for the scalar facts resolved through
`_resolve_with_rag`. -/
structure StandardValueQ : Type where
  value : ℚ
  units : Option String
  source : String
  verified : Bool
  verification : ScalarVerification
  citation : Option (List Citation)

/-- Embeds `_matches_value(structured, rag, tolerance)`. -/
def matchesValue (structuredValue ragValue tolerance : ℚ) : Bool :=
  |structuredValue - ragValue| ≤ tolerance

/-- Embeds `StandardsService._resolve_with_rag`: `engineResult` is
`self.query_engine` (`none` when unconfigured) paired with the return
of its `query_speed_value` call; `rag_result and rag_result.values and
len(rag_result.values) > value_index` is the source's truthiness guard
(`None` and the empty list are falsy). -/
def resolveWithRag (ragEnabled strict : Bool)
    (engineResult : Option (Option QueryResult))
    (structuredValue : ℚ) (units : Option String) (valueIndex : ℕ) :
    StandardValueQ :=
  let verification : ScalarVerification := ⟨structuredValue, none, "structured"⟩
  let structuredDefault : StandardValueQ :=
    ⟨structuredValue, units, "structured", true, verification, none⟩
  if ragEnabled then
    match engineResult with
    | some ragResultOpt =>
      match ragResultOpt with
      | some r =>
        match r.values with
        | some vs =>
          if vs ≠ [] ∧ valueIndex < vs.length then
            let ragValue := vs.getD valueIndex 0
            let verification' : ScalarVerification :=
              ⟨structuredValue, some ragValue, r.method⟩
            let citation := some (buildCitation r)
            if matchesValue structuredValue ragValue (1 / 2) then
              ⟨structuredValue, units, "rag+structured", true, verification',
                citation⟩
            else if strict = false then
              ⟨ragValue, units, "rag_unverified", false, verification',
                citation⟩
            else
              ⟨structuredValue, units, "structured", true, verification',
                citation⟩
          else structuredDefault
        | none => structuredDefault
      | none => structuredDefault
    | none => structuredDefault
  else structuredDefault

/-- Embeds `StandardInterpolationRequiredError`: the message names the requested
speed and the ascending list of available speeds; both are kept as
structured fields of the error. -/
structure InterpError : Type where
  requestedSpeed : ℕ
  availableSpeeds : List ℕ
deriving DecidableEq

/-- Embeds `StandardsService.get_minimum_radius(design_speed)` over the loaded
radius table (speed key to radius) and its optional `units` field
(default `"feet"`). -/
def getMinimumRadius (radiusTable : List (ℕ × ℚ)) (unitsFld : Option String)
    (ragEnabled strict : Bool) (engineResult : Option (Option QueryResult))
    (designSpeed : ℕ) : Except InterpError StandardValueQ :=
  match lookupKey radiusTable designSpeed with
  | none => .error ⟨designSpeed, sortNat (radiusTable.map Prod.fst)⟩
  | some structuredValue =>
    .ok (resolveWithRag ragEnabled strict engineResult structuredValue
      (some (unitsFld.getD "feet")) 0)

/-- Embeds `StandardsService.get_vertical_curve_k(design_speed, curve_type)`:
the crest table is used exactly when `curve_type == "crest"`, any other
string selects the sag table; `value_index` is 0 for crest, 1
otherwise. -/
def getVerticalCurveK (crestTable sagTable : List (ℕ × ℚ))
    (unitsFld : Option String) (ragEnabled strict : Bool)
    (engineResult : Option (Option QueryResult))
    (designSpeed : ℕ) (curveType : String) :
    Except InterpError StandardValueQ :=
  let kValues := if curveType = "crest" then crestTable else sagTable
  match lookupKey kValues designSpeed with
  | none => .error ⟨designSpeed, sortNat (kValues.map Prod.fst)⟩
  | some structuredValue =>
    .ok (resolveWithRag ragEnabled strict engineResult structuredValue
      (some (unitsFld.getD "feet"))
      (if curveType = "crest" then 0 else 1))

/-- Embeds `StandardsService.get_stopping_sight_distance(design_speed)`. -/
def getStoppingSightDistance (ssdTable : List (ℕ × ℚ))
    (unitsFld : Option String) (ragEnabled strict : Bool)
    (engineResult : Option (Option QueryResult)) (designSpeed : ℕ) :
    Except InterpError StandardValueQ :=
  match lookupKey ssdTable designSpeed with
  | none => .error ⟨designSpeed, sortNat (ssdTable.map Prod.fst)⟩
  | some structuredValue =>
    .ok (resolveWithRag ragEnabled strict engineResult structuredValue
      (some (unitsFld.getD "feet")) 0)

/-! ### Clear-zone resolution -/

/-- A clear-zone table leaf `{"min": ..., "max": ..., "asterisk": ...}`. -/
structure WidthRange : Type where
  min : ℚ
  max : ℚ
  asterisk : Bool
deriving DecidableEq

/-- The slope dictionaries of one AADT bucket: keys `"foreslopes"` /
`"backslopes"`, each a mapping from slope category to width range. -/
def AadtData : Type := List (String × List (String × WidthRange))

/-- One speed entry of the clear-zone table: its `"aadt_ranges"`
dictionary. -/
structure SpeedData : Type where
  aadtRanges : List (String × AadtData)

/-- The clear-zone `design_speed_based` table, keyed by design speed. -/
def CZTable : Type := List (ℕ × SpeedData)

/-- Errors `get_clear_zone_width` can raise: the interpolation error for
a missing speed key, or the `ValueError` for a missing leaf (carrying
the inputs its message interpolates). -/
inductive CZError : Type
  | interp (e : InterpError) : CZError
  | valueError (designSpeed : ℕ) (adtCategory slopePosition slopeCategory :
      String) : CZError

/-- Verification record for the clear-zone range fact. -/
structure RangeVerification : Type where
  structuredMin : ℚ
  structuredMax : ℚ
  ragValue : Option (Option ℚ × Option ℚ)
  method : String

/-- The `value` field of a clear-zone `StandardValue`: the structured
range dict, or the dict built from the RAG extraction in the non-strict
disagreement branch. -/
inductive CZValue : Type
  | range (wr : WidthRange) : CZValue
  | ragRange (min max : Option ℚ) (asterisk : Bool) : CZValue

/-- Embeds `StandardValue` as returned by `get_clear_zone_width`. -/
structure StandardValueCZ : Type where
  value : CZValue
  units : Option String
  source : String
  verified : Bool
  verification : RangeVerification
  citation : Option (List Citation)

/-- Embeds `_matches_range(structured_min, structured_max, rag_min, rag_max,
tolerance)`. -/
def matchesRange (structuredMin structuredMax : ℚ)
    (ragMin ragMax : Option ℚ) (tolerance : ℚ) : Bool :=
  match ragMin, ragMax with
  | some rmin, some rmax =>
    |structuredMin - rmin| ≤ tolerance ∧ |structuredMax - rmax| ≤ tolerance
  | _, _ => false

/-- Embeds `StandardsService.get_clear_zone_width(design_speed, adt,
slope_position, slope_category)`: `engineJson` is the optional engine
paired with its `query_json` return; `if rag_result and rag_result.raw:`
requires a truthy (non-empty) raw object. -/
def getClearZoneWidth (table : CZTable) (unitsFld : Option String)
    (ragEnabled strict : Bool) (engineJson : Option (Option QueryResult))
    (designSpeed : ℕ) (adt : ℤ) (slopePosition slopeCategory : String) :
    Except CZError StandardValueCZ :=
  match lookupKey table designSpeed with
  | none => .error (.interp ⟨designSpeed, sortNat (table.map Prod.fst)⟩)
  | some speedData =>
    let adtCategory := getAdtCategory adt
    let aadtData := (lookupKey speedData.aadtRanges adtCategory).getD []
    let slopeKey := if slopePosition = "foreslope" then "foreslopes"
      else "backslopes"
    let slopeData := (lookupKey aadtData slopeKey).getD []
    match lookupKey slopeData slopeCategory with
    | none =>
      .error (.valueError designSpeed adtCategory slopePosition slopeCategory)
    | some structuredRange =>
      let units := unitsFld.getD "feet"
      let structuredMin := structuredRange.min
      let structuredMax := structuredRange.max
      let verification : RangeVerification :=
        ⟨structuredMin, structuredMax, none, "structured"⟩
      let structuredReturn : RangeVerification → Option (List Citation) →
          StandardValueCZ := fun ver cit =>
        ⟨.range structuredRange, some units, "structured", true, ver, cit⟩
      if ragEnabled then
        match engineJson with
        | some (some r) =>
          match r.raw with
          | some raw =>
            if jTruthy raw then
              let ragMin := safeFloat (objGet raw "min_width")
              let ragMax := safeFloat (objGet raw "max_width")
              let verification' : RangeVerification :=
                ⟨structuredMin, structuredMax, some (ragMin, ragMax), r.method⟩
              let citation := some (buildCitation r)
              if matchesRange structuredMin structuredMax ragMin ragMax
                  (1 / 2) then
                .ok ⟨.range structuredRange, some units, "rag+structured",
                  true, verification', citation⟩
              else if strict = false then
                .ok ⟨.ragRange ragMin ragMax
                    (((objGet raw "asterisk").map jTruthy).getD false),
                  some units, "rag_unverified", false, verification', citation⟩
              else .ok (structuredReturn verification' citation)
            else .ok (structuredReturn verification none)
          | none => .ok (structuredReturn verification none)
        | some none => .ok (structuredReturn verification none)
        | none => .ok (structuredReturn verification none)
      else .ok (structuredReturn verification none)

/-! ## roadscript/validation/validators.py and core/clear_zones.py -/

/-- The `inputs` dictionary `ClearZoneCalculator.calculate` builds: it
always carries exactly the keys `design_speed`, `adt`,
`slope_position`, `slope_category`. -/
structure CZInputs : Type where
  designSpeed : ℕ
  adt : ℤ
  slopePosition : String
  slopeCategory : String

/-- The `validation_rules["clear_zones"]` record; `none` fields model
absent keys, replaced by the source's `.get` defaults. -/
structure CZRules : Type where
  requiredFields : List String
  designSpeedRange : Option (ℤ × ℤ)
  validSlopeCategories : Option (List String)

/-- Validation error messages, kept structurally (each constructor
carries the data its f-string message interpolates). -/
inductive Issue : Type
  | missingField (field : String) : Issue
  | speedOutOfRange (speed lo hi : ℤ) : Issue
  | invalidSlopeCategory (category : String) (valid : List String) : Issue
  | invalidAdt (adt : ℤ) : Issue
  | nonPositiveWidth : Issue
  | belowTypicalMinimum : Issue
deriving DecidableEq

/-- Embeds `InputValidator.validate_clear_zone_inputs(inputs)`.  The required-
fields pass tests key presence only (the `inputs` dict always holds the
four keys above); the design-speed range defaults to `[0, 100]`, the
valid slope categories default to `[]`; the ADT check's `isinstance`
arm never fires for an integer ADT.  Note no check reads
`slope_position`. -/
def validateClearZoneInputs (rules : CZRules) (inputs : CZInputs) :
    Bool × List Issue :=
  let inputKeys := ["design_speed", "adt", "slope_position", "slope_category"]
  let errors :=
    (rules.requiredFields.filter (fun f => f ∉ inputKeys)).map Issue.missingField
  let speedRange := rules.designSpeedRange.getD (0, 100)
  let speed : ℤ := inputs.designSpeed
  let errors := errors ++
    (if ¬ (speedRange.1 ≤ speed ∧ speed ≤ speedRange.2) then
      [Issue.speedOutOfRange speed speedRange.1 speedRange.2]
    else [])
  let validSlopes := rules.validSlopeCategories.getD []
  let errors := errors ++
    (if inputs.slopeCategory ∉ validSlopes then
      [Issue.invalidSlopeCategory inputs.slopeCategory validSlopes]
    else [])
  let errors := errors ++
    (if inputs.adt < 0 then [Issue.invalidAdt inputs.adt] else [])
  (errors.isEmpty, errors)

/-- The two runtime shapes that reach
`ComplianceChecker.check_clear_zone_compliance` as `calculated_width`:
a number (the annotated type) or the width-range dict
`ClearZoneCalculator.calculate` actually passes. -/
inductive PyVal : Type
  | num (q : ℚ) : PyVal
  | dict (wr : WidthRange) : PyVal
deriving DecidableEq

/-- Embeds `calculated_width <= c` in Python 3: comparing a dict with a number
raises `TypeError`. -/
def pyLe (v : PyVal) (c : ℚ) : Except PyError Bool :=
  match v with
  | .num q => .ok (q ≤ c)
  | .dict _ => .error .typeError

/-- Embeds `calculated_width < c` in Python 3. -/
def pyLt (v : PyVal) (c : ℚ) : Except PyError Bool :=
  match v with
  | .num q => .ok (q < c)
  | .dict _ => .error .typeError

/-- Embeds `ComplianceChecker.check_clear_zone_compliance(inputs,
calculated_width)`: positive-width and 7-foot-minimum checks, compliant
iff no issue. -/
def checkClearZoneCompliance (calculatedWidth : PyVal) :
    Except PyError (Bool × List Issue) :=
  match pyLe calculatedWidth 0 with
  | .error e => .error e
  | .ok nonPositive =>
    let issues := if nonPositive then [Issue.nonPositiveWidth] else []
    match pyLt calculatedWidth 7 with
    | .error e => .error e
    | .ok belowMin =>
      let issues := issues ++
        (if belowMin then [Issue.belowTypicalMinimum] else [])
      .ok (issues.isEmpty, issues)

/-- Failure modes of `ClearZoneCalculator.calculate`: the validation
`ValueError`, the interpolation error, the missing-leaf `ValueError`,
or an uncaught Python runtime error. -/
inductive CalcError : Type
  | validation (errors : List Issue) : CalcError
  | interp (e : InterpError) : CalcError
  | missingEntry (designSpeed : ℕ)
      (slopePosition slopeCategory adtCategory : String) : CalcError
  | pyError (e : PyError) : CalcError

/-- The result dictionary `ClearZoneCalculator.calculate` returns. -/
structure CalcResults : Type where
  minWidth : ℚ
  maxWidth : ℚ
  asterisk : Bool
  designSpeed : ℕ
  adt : ℤ
  adtCategory : String
  slopePosition : String
  slopeCategory : String
  compliant : Bool
  warnings : List Issue
  units : String
  standardsVersion : Option String

/-- Embeds `ClearZoneCalculator.calculate(design_speed, adt, slope_position,
slope_category)` over the loaded clear-zone table, validation rules and
metadata version.  The compliance check receives the width-range dict
itself, exactly as in the source. -/
def czCalculate (rules : CZRules) (table : CZTable)
    (metaVersion : Option String) (designSpeed : ℕ) (adt : ℤ)
    (slopePosition slopeCategory : String) : Except CalcError CalcResults :=
  let inputs : CZInputs := ⟨designSpeed, adt, slopePosition, slopeCategory⟩
  let validation := validateClearZoneInputs rules inputs
  if validation.1 = false then .error (.validation validation.2)
  else
    let adtCategory := czGetAdtCategory adt
    match lookupKey table designSpeed with
    | none => .error (.interp ⟨designSpeed, sortNat (table.map Prod.fst)⟩)
    | some speedData =>
      let aadtData := (lookupKey speedData.aadtRanges adtCategory).getD []
      let slopeKey := if slopePosition = "foreslope" then "foreslopes"
        else "backslopes"
      let slopeData := (lookupKey aadtData slopeKey).getD []
      match lookupKey slopeData slopeCategory with
      | none =>
        .error (.missingEntry designSpeed slopePosition slopeCategory
          adtCategory)
      | some widthRange =>
        match checkClearZoneCompliance (.dict widthRange) with
        | .error e => .error (.pyError e)
        | .ok compliance =>
          .ok ⟨widthRange.min, widthRange.max, widthRange.asterisk,
            designSpeed, adt, adtCategory, slopePosition, slopeCategory,
            compliance.1, compliance.2, "feet", metaVersion⟩

/-! ## Concrete instances used by the closed theorems -/

/-- Validation rules with the four input fields required, the default
speed range, and one valid slope category. -/
def czRulesEx : CZRules :=
  ⟨["design_speed", "adt", "slope_position", "slope_category"],
    some (0, 100), some ["6_1_or_flatter"]⟩

/-- A one-speed clear-zone table with foreslope and backslope entries. -/
def czTableEx : CZTable :=
  [(60, ⟨[("1500-6000",
    [("foreslopes", [("6_1_or_flatter", ⟨26, 30, false⟩)]),
     ("backslopes", [("6_1_or_flatter", ⟨20, 24, false⟩)])])]⟩)]

/-- A one-speed clear-zone table whose only entries are backslope
entries. -/
def czTableBackOnly : CZTable :=
  [(60, ⟨[("1500-6000", [("backslopes", [("3_1", ⟨14, 16, true⟩)])])]⟩)]

/-! # Theorems -/

/-! ## C9 — traffic-category bucketing -/

/-- C9: the traffic-category bucketing function is total (for every
integer ADT it returns one of the four category strings, in particular
for every non-negative one) and boundary-exact at 749/750/1500/6000/
6001; the verbatim copy inside the clear-zone calculator agrees with
the service's everywhere. -/
theorem c9_adt_bucketing_boundaries :
    getAdtCategory 749 = "<750" ∧ getAdtCategory 750 = "750-1500" ∧
    getAdtCategory 1500 = "1500-6000" ∧ getAdtCategory 6000 = "1500-6000" ∧
    getAdtCategory 6001 = ">6000" ∧
    (∀ n : ℤ, getAdtCategory n = "<750" ∨ getAdtCategory n = "750-1500" ∨
      getAdtCategory n = "1500-6000" ∨ getAdtCategory n = ">6000") ∧
    (∀ n : ℤ, czGetAdtCategory n = getAdtCategory n) := by
  refine ⟨by decide, by decide, by decide, by decide, by decide, ?_, ?_⟩
  · intro n
    unfold getAdtCategory
    split_ifs <;> simp
  · intro n
    rfl

/-! ## C5 — `chunk_text` termination -/

/-- With `chunk_size = 1`, `overlap = 1` and two words, each iteration
recomputes `start = max(0, 1 - 1) = 0`: the loop never terminates, so
the fuelled embedding returns `none` for every fuel amount. -/
theorem chunkLoop_stuck_two_words : ∀ fuel : ℕ,
    chunkLoop ["a", "b"] 1 1 fuel 0 = none := by
  intro fuel
  induction fuel with
  | zero => rfl
  | succ n ih => simp [chunkLoop, ih]

/-- C5: the claim says `chunk_text` terminates for every `overlap ≥
size ≥ 1`, advancing its window by at least one token per step.  The
code has no such floor: on the two-word text `"a b"` with `chunk_size =
1`, `overlap = 1`, the loop recomputes `start = 0` forever, so no
amount of fuel makes the embedded loop finish.  (The spec itself
demands the ≥ 1 advance, so this is a defect of the code.) -/
theorem c5_chunk_text_diverges : ∀ fuel : ℕ,
    chunkText fuel "a b" 1 1 = none := by
  intro fuel
  have h := chunkLoop_stuck_two_words fuel
  simpa [chunkText] using h

/-! ## C4 — clear-zone compliance check crashes -/

/-- C4: the claim says that on validated inputs with an existing table
entry, `ClearZoneCalculator.calculate` completes its compliance check
and returns the result bundle.  In fact `calculate` passes the
width-range dict where `check_clear_zone_compliance` expects a number,
and the comparison `calculated_width <= 0` raises `TypeError` in Python
3 — so every input that passes validation and finds an entry crashes.
Validation passes and the entry exists here, yet the call fails. -/
theorem c4_compliance_check_type_error :
    validateClearZoneInputs czRulesEx ⟨60, 5000, "foreslope", "6_1_or_flatter"⟩
      = (true, []) ∧
    czCalculate czRulesEx czTableEx none 60 5000 "foreslope" "6_1_or_flatter"
      = .error (.pyError .typeError) ∧
    checkClearZoneCompliance (.dict ⟨26, 30, false⟩) = .error .typeError := by
  exact ⟨rfl, rfl, rfl⟩

/-! ## C6 — LLM fallback shape handling -/

/-- C6: the claim says every malformed model response makes the fallback
return nothing without crashing.  A non-list `values` field and a
too-short list do fall through to the cached miss, but a list that is
long enough while containing a non-numeric entry crashes:
`float(None)` raises `TypeError` before any shape rejection. -/
theorem c6_llm_fallback_crashes_on_non_numeric :
    querySpeedValue [] [] (some (.jobj [("values", .jarr [.jnull])]))
      "q" 60 1 true = .error .typeError ∧
    querySpeedValue [] [] (some (.jobj [("values", .jstr "830")]))
      "q" 60 1 true = .ok ⟨none, [("q601", missPayload)], true, true⟩ ∧
    querySpeedValue [] [] (some (.jobj [("values", .jarr [.jnum 830])]))
      "q" 60 2 true = .ok ⟨none, [("q602", missPayload)], true, true⟩ := by
  exact ⟨rfl, rfl, rfl⟩

/-! ## C2 — missing design speed raises the interpolation error -/

/-- C2: for every design speed absent from the relevant table, each of
the four resolution functions returns the interpolation-required error
carrying the requested speed and the ascending sort of the available
speeds, and no value; there is no nearest-speed substitution. -/
theorem c2_missing_speed_interpolation_error :
    (∀ (tbl : List (ℕ × ℚ)) units rag strict eng speed,
      lookupKey tbl speed = none →
      getMinimumRadius tbl units rag strict eng speed =
        .error ⟨speed, sortNat (tbl.map Prod.fst)⟩) ∧
    (∀ (crest sag : List (ℕ × ℚ)) units rag strict eng speed curveType,
      lookupKey (if curveType = "crest" then crest else sag) speed = none →
      getVerticalCurveK crest sag units rag strict eng speed curveType =
        .error ⟨speed,
          sortNat ((if curveType = "crest" then crest else sag).map Prod.fst)⟩) ∧
    (∀ (tbl : List (ℕ × ℚ)) units rag strict eng speed,
      lookupKey tbl speed = none →
      getStoppingSightDistance tbl units rag strict eng speed =
        .error ⟨speed, sortNat (tbl.map Prod.fst)⟩) ∧
    (∀ (tbl : CZTable) units rag strict eng speed adt pos cat,
      lookupKey tbl speed = none →
      getClearZoneWidth tbl units rag strict eng speed adt pos cat =
        .error (.interp ⟨speed, sortNat (tbl.map Prod.fst)⟩)) := by
  refine ⟨?_, ?_, ?_, ?_⟩
  · intro tbl units rag strict eng speed h
    simp only [getMinimumRadius, h]
  · intro crest sag units rag strict eng speed curveType h
    simp only [getVerticalCurveK, h]
  · intro tbl units rag strict eng speed h
    simp only [getStoppingSightDistance, h]
  · intro tbl units rag strict eng speed adt pos cat h
    simp only [getClearZoneWidth, h]

/-- Witness for C2: speed 55 is absent from each concrete one-row table,
and every function reports ⟨55, [60]⟩. -/
theorem c2_missing_speed_interpolation_error_witness :
    getMinimumRadius [(60, 830)] none false true none 55 =
      .error ⟨55, [60]⟩ ∧
    getVerticalCurveK [(60, 151)] [(60, 136)] none false true none 55 "crest" =
      .error ⟨55, [60]⟩ ∧
    getStoppingSightDistance [(60, 570)] none false true none 55 =
      .error ⟨55, [60]⟩ ∧
    getClearZoneWidth czTableEx none false true none 55 5000
        "foreslope" "6_1_or_flatter" =
      .error (.interp ⟨55, [60]⟩) :=
  ⟨c2_missing_speed_interpolation_error.1 _ _ _ _ _ _ rfl,
   c2_missing_speed_interpolation_error.2.1 _ _ _ _ _ _ _ _ rfl,
   c2_missing_speed_interpolation_error.2.2.1 _ _ _ _ _ _ rfl,
   c2_missing_speed_interpolation_error.2.2.2 _ _ _ _ _ _ _ _ _ rfl⟩

/-! ## C3 — structured path and the `source="structured"` invariant -/

/-- Every value `_resolve_with_rag` returns is one of three shapes: the
structured value (`source="structured"`, `verified=true`), the agreed
structured value (`source="rag+structured"`, `verified=true`), or the
RAG value (`source="rag_unverified"`, `verified=false`). -/
theorem resolveWithRag_shape (ragEnabled strict : Bool)
    (engineResult : Option (Option QueryResult)) (s : ℚ)
    (units : Option String) (idx : ℕ) :
    (∃ ver cit, resolveWithRag ragEnabled strict engineResult s units idx =
      ⟨s, units, "structured", true, ver, cit⟩) ∨
    (∃ ver cit, resolveWithRag ragEnabled strict engineResult s units idx =
      ⟨s, units, "rag+structured", true, ver, cit⟩) ∨
    (∃ v ver cit, resolveWithRag ragEnabled strict engineResult s units idx =
      ⟨v, units, "rag_unverified", false, ver, cit⟩) := by
  rcases engineResult with _ | ro
  · cases ragEnabled <;> exact Or.inl ⟨⟨s, none, "structured"⟩, none, rfl⟩
  · rcases ro with _ | ⟨rv, rm, rs, rr⟩
    · cases ragEnabled <;> exact Or.inl ⟨⟨s, none, "structured"⟩, none, rfl⟩
    · cases ragEnabled with
      | false => exact Or.inl ⟨⟨s, none, "structured"⟩, none, rfl⟩
      | true =>
        rcases rv with _ | vs
        · exact Or.inl ⟨⟨s, none, "structured"⟩, none, rfl⟩
        · by_cases h1 : (vs ≠ [] ∧ idx < vs.length)
          · by_cases h2 : matchesValue s (vs.getD idx 0) (1 / 2) = true
            · refine Or.inr (Or.inl ⟨⟨s, some (vs.getD idx 0), rm⟩,
                some (buildCitation ⟨some vs, rm, rs, rr⟩), ?_⟩)
              rw [List.getD_eq_getElem vs 0 h1.2, one_div] at h2
              simp [resolveWithRag, h1, h2]
            · have h2f : matchesValue s (vs.getD idx 0) (1 / 2) = false := by
                cases hb : matchesValue s (vs.getD idx 0) (1 / 2)
                · rfl
                · exact absurd hb h2
              rw [List.getD_eq_getElem vs 0 h1.2, one_div] at h2f
              by_cases h3 : strict = false
              · refine Or.inr (Or.inr ⟨vs.getD idx 0,
                  ⟨s, some (vs.getD idx 0), rm⟩,
                  some (buildCitation ⟨some vs, rm, rs, rr⟩), ?_⟩)
                rw [List.getD_eq_getElem vs 0 h1.2]
                simp [resolveWithRag, h1, h2f, h3]
              · refine Or.inl ⟨⟨s, some (vs.getD idx 0), rm⟩,
                  some (buildCitation ⟨some vs, rm, rs, rr⟩), ?_⟩
                rw [List.getD_eq_getElem vs 0 h1.2]
                simp [resolveWithRag, h1, h2f, h3]
          · refine Or.inl ⟨⟨s, none, "structured"⟩, none, ?_⟩
            simp [resolveWithRag, h1]

/-- C3: with RAG disabled or no engine configured, resolution returns
the structured value verbatim (`source="structured"`, `verified=true`);
and in every value `_resolve_with_rag` returns, `source="structured"`
implies `verified=true` and `value` equal to the structured table
value. -/
theorem c3_structured_default_and_invariant :
    (∀ strict engineResult s units idx ragEnabled,
      ragEnabled = false ∨ engineResult = none →
      resolveWithRag ragEnabled strict engineResult s units idx =
        ⟨s, units, "structured", true, ⟨s, none, "structured"⟩, none⟩) ∧
    (∀ (tbl : List (ℕ × ℚ)) units strict eng speed v ragEnabled,
      lookupKey tbl speed = some v → (ragEnabled = false ∨ eng = none) →
      getMinimumRadius tbl units ragEnabled strict eng speed =
        .ok ⟨v, some (units.getD "feet"), "structured", true,
          ⟨v, none, "structured"⟩, none⟩) ∧
    (∀ ragEnabled strict engineResult s units idx,
      (resolveWithRag ragEnabled strict engineResult s units idx).source =
        "structured" →
      (resolveWithRag ragEnabled strict engineResult s units idx).verified =
        true ∧
      (resolveWithRag ragEnabled strict engineResult s units idx).value = s) := by
  have hoff : ∀ strict engineResult s units idx ragEnabled,
      ragEnabled = false ∨ engineResult = none →
      resolveWithRag ragEnabled strict engineResult s units idx =
        ⟨s, units, "structured", true, ⟨s, none, "structured"⟩, none⟩ := by
    intro strict engineResult s units idx ragEnabled h
    rcases h with h | h
    · subst h; rfl
    · subst h; cases ragEnabled <;> rfl
  refine ⟨hoff, ?_, ?_⟩
  · intro tbl units strict eng speed v ragEnabled hl h
    simp only [getMinimumRadius, hl]
    exact congrArg Except.ok
      (hoff strict eng v (some (units.getD "feet")) 0 ragEnabled h)
  · intro ragEnabled strict engineResult s units idx hsrc
    rcases resolveWithRag_shape ragEnabled strict engineResult s units idx with
      ⟨ver, cit, heq⟩ | ⟨ver, cit, heq⟩ | ⟨v, ver, cit, heq⟩
    · rw [heq]
      exact ⟨rfl, rfl⟩
    · rw [heq] at hsrc
      simp at hsrc
    · rw [heq] at hsrc
      simp at hsrc

/-- Witness for C3: a present key with RAG disabled resolves to the
exact structured value. -/
theorem c3_structured_default_and_invariant_witness :
    getMinimumRadius [(60, 830)] none false true none 60 =
      .ok ⟨830, some "feet", "structured", true,
        ⟨830, none, "structured"⟩, none⟩ ∧
    (resolveWithRag false true none 830 (some "feet") 0).verified = true :=
  ⟨c3_structured_default_and_invariant.2.1 _ _ _ _ _ _ _ rfl (Or.inl rfl),
   (c3_structured_default_and_invariant.2.2 false true none 830 (some "feet") 0
     (by rfl)).1⟩

/-! ## C1 — scalar reconciliation under tolerance and strictness -/

/-- C1: when RAG is enabled and extraction yields a numeric value `v`
for structured value `s` (the engine returned a result whose values
list is long enough), `_resolve_with_rag` reconciles with tolerance
0.5: agreement (`|s - v| ≤ 0.5`) gives `source="rag+structured"`,
`verified=true`, `value=s`; disagreement under `strict=true` gives
`source="structured"`, `verified=true`, `value=s` with the extracted
value recorded in the verification record; disagreement under
`strict=false` gives `source="rag_unverified"`, `verified=false`,
`value=v`. -/
theorem c1_scalar_reconciliation (strict : Bool) (s : ℚ)
    (units : Option String) (idx : ℕ) (r : QueryResult) (vs : List ℚ)
    (v : ℚ) (hvals : r.values = some vs) (hlen : idx < vs.length)
    (hv : v = vs.getD idx 0) :
    (|s - v| ≤ 1 / 2 →
      (resolveWithRag true strict (some (some r)) s units idx).source =
        "rag+structured" ∧
      (resolveWithRag true strict (some (some r)) s units idx).verified =
        true ∧
      (resolveWithRag true strict (some (some r)) s units idx).value = s) ∧
    (1 / 2 < |s - v| → strict = true →
      (resolveWithRag true strict (some (some r)) s units idx).source =
        "structured" ∧
      (resolveWithRag true strict (some (some r)) s units idx).verified =
        true ∧
      (resolveWithRag true strict (some (some r)) s units idx).value = s ∧
      (resolveWithRag true strict (some (some r)) s units
        idx).verification.ragValue = some v ∧
      (resolveWithRag true strict (some (some r)) s units
        idx).verification.structuredValue = s) ∧
    (1 / 2 < |s - v| → strict = false →
      (resolveWithRag true strict (some (some r)) s units idx).source =
        "rag_unverified" ∧
      (resolveWithRag true strict (some (some r)) s units idx).verified =
        false ∧
      (resolveWithRag true strict (some (some r)) s units idx).value = v) := by
  subst hv
  obtain ⟨rv, rm, rs, rr⟩ := r
  simp only at hvals
  subst hvals
  have hne : vs ≠ [] :=
    List.ne_nil_of_length_pos (Nat.lt_of_le_of_lt (Nat.zero_le idx) hlen)
  have hred : resolveWithRag true strict (some (some ⟨some vs, rm, rs, rr⟩))
      s units idx =
      (if matchesValue s (vs.getD idx 0) (1 / 2) = true then
        ⟨s, units, "rag+structured", true,
          ⟨s, some (vs.getD idx 0), rm⟩,
          some (buildCitation ⟨some vs, rm, rs, rr⟩)⟩
      else if strict = false then
        ⟨vs.getD idx 0, units, "rag_unverified", false,
          ⟨s, some (vs.getD idx 0), rm⟩,
          some (buildCitation ⟨some vs, rm, rs, rr⟩)⟩
      else
        ⟨s, units, "structured", true,
          ⟨s, some (vs.getD idx 0), rm⟩,
          some (buildCitation ⟨some vs, rm, rs, rr⟩)⟩) := by
    rw [List.getD_eq_getElem vs 0 hlen]
    simp [resolveWithRag, hne, hlen, one_div]
  refine ⟨?_, ?_, ?_⟩
  · intro hle
    have hm : matchesValue s (vs.getD idx 0) (1 / 2) = true :=
      decide_eq_true hle
    rw [hred, if_pos hm]
    exact ⟨rfl, rfl, rfl⟩
  · intro hgt hstrict
    have hm : matchesValue s (vs.getD idx 0) (1 / 2) = false :=
      decide_eq_false (not_le.mpr hgt)
    rw [hred, if_neg (by rw [hm]; decide), if_neg (by rw [hstrict]; decide)]
    exact ⟨rfl, rfl, rfl, rfl, rfl⟩
  · intro hgt hstrict
    have hm : matchesValue s (vs.getD idx 0) (1 / 2) = false :=
      decide_eq_false (not_le.mpr hgt)
    rw [hred, if_neg (by rw [hm]; decide), if_pos hstrict]
    exact ⟨rfl, rfl, rfl⟩

/-- Witness for C1: with structured value 80 and extracted value 80.3
(within tolerance), the resolved value is the structured 80 tagged
`rag+structured`/`verified`. -/
theorem c1_scalar_reconciliation_witness :
    (resolveWithRag true true (some (some ⟨some [803 / 10], "regex", [],
      none⟩)) 80 (some "feet") 0).source = "rag+structured" ∧
    (resolveWithRag true true (some (some ⟨some [803 / 10], "regex", [],
      none⟩)) 80 (some "feet") 0).verified = true ∧
    (resolveWithRag true true (some (some ⟨some [803 / 10], "regex", [],
      none⟩)) 80 (some "feet") 0).value = 80 :=
  (c1_scalar_reconciliation true 80 (some "feet") 0
    ⟨some [803 / 10], "regex", [], none⟩ [803 / 10] (803 / 10) rfl
    (by decide) (by simp)).1 (by rw [abs_le]; constructor <;> norm_num)

/-! ## C8 — cache hits short-circuit everything -/

/-- C8: whenever the cache key of a query is present in the query cache
— in particular for a recorded `method="miss"` entry — the engine
returns the result rebuilt from the cached payload; the cache is
unchanged and neither retrieval, nor deterministic extraction, nor the
language model is invoked, so a previously-failed extraction is never
retried automatically. -/
theorem c8_cache_hit_short_circuits (cache : Cache)
    (retrieved : List Snippet) (llm : Option JVal) (query : String)
    (speed valueCount : ℕ) (allowLLM : Bool) (p : QueryResult)
    (hp : cacheGet cache (buildCacheKey [query, (natDigits speed).asString,
      (natDigits valueCount).asString]) = some p) :
    querySpeedValue cache retrieved llm query speed valueCount allowLLM =
      .ok ⟨some ⟨p.values, p.method, p.snippets, p.raw⟩, cache,
        false, false⟩ := by
  simp only [querySpeedValue]
  rw [hp]

/-- Witness for C8: a cache holding a recorded miss for the key of
query `"q"`, speed 60, one value: the call returns the cached miss,
leaves the cache alone, and performs no retrieval and no model call. -/
theorem c8_cache_hit_short_circuits_witness :
    querySpeedValue [("q601", missPayload)]
      [⟨"60 830", [], 0⟩] (some (.jobj [("values", .jarr [.jnum 830])]))
      "q" 60 1 true =
      .ok ⟨some ⟨none, "miss", [], none⟩, [("q601", missPayload)],
        false, false⟩ :=
  c8_cache_hit_short_circuits [("q601", missPayload)]
    [⟨"60 830", [], 0⟩] (some (.jobj [("values", .jarr [.jnum 830])]))
    "q" 60 1 true missPayload rfl

/-! ## C10 — `slope_position` is never validated -/

/-- C10: no check of `validate_clear_zone_inputs` reads
`slope_position`, so validation never rejects a misspelled position;
inside the lookup, every position other than `"foreslope"` selects the
`"backslopes"` branch, and the lookup proceeds there: a result is `ok`
for a misspelled position exactly when it is `ok` for `"backslope"`,
and concretely `"Foreslope"` resolves from the backslopes table. -/
theorem c10_slope_position_unchecked :
    (∀ (rules : CZRules) (ds : ℕ) (adt : ℤ) (pos posB cat : String),
      validateClearZoneInputs rules ⟨ds, adt, pos, cat⟩ =
        validateClearZoneInputs rules ⟨ds, adt, posB, cat⟩) ∧
    (∀ (table : CZTable) units rag strict eng speed adt cat pos sv,
      pos ≠ "foreslope" →
      (getClearZoneWidth table units rag strict eng speed adt pos cat =
          .ok sv ↔
        getClearZoneWidth table units rag strict eng speed adt "backslope"
          cat = .ok sv)) ∧
    (getClearZoneWidth czTableBackOnly none false true none 60 5000
        "Foreslope" "3_1" =
      .ok ⟨.range ⟨14, 16, true⟩, some "feet", "structured", true,
        ⟨14, 16, none, "structured"⟩, none⟩) ∧
    (getClearZoneWidth czTableBackOnly none false true none 60 5000
        "foreslope" "3_1" =
      .error (.valueError 60 "1500-6000" "foreslope" "3_1")) := by
  refine ⟨?_, ?_, rfl, rfl⟩
  · intro rules ds adt pos posB cat
    rfl
  · intro table units rag strict eng speed adt cat pos sv hpos
    simp only [getClearZoneWidth]
    rw [if_neg hpos, if_neg (by decide : ¬("backslope" : String) = "foreslope")]
    split
    · exact Iff.rfl
    · split
      · constructor <;> intro h <;> exact Except.noConfusion h
      · exact Iff.rfl

/-- Witness for C10: the misspelling `"Foreslope"` is mapped to the
backslopes branch: its result is `ok` exactly when the `"backslope"`
result is, instantiated at the concrete backslopes-only table. -/
theorem c10_slope_position_unchecked_witness :
    getClearZoneWidth czTableBackOnly none false true none 60 5000
        "Foreslope" "3_1" =
      .ok ⟨.range ⟨14, 16, true⟩, some "feet", "structured", true,
        ⟨14, 16, none, "structured"⟩, none⟩ ↔
    getClearZoneWidth czTableBackOnly none false true none 60 5000
        "backslope" "3_1" =
      .ok ⟨.range ⟨14, 16, true⟩, some "feet", "structured", true,
        ⟨14, 16, none, "structured"⟩, none⟩ :=
  c10_slope_position_unchecked.2.1 czTableBackOnly none false true none
    60 5000 "3_1" "Foreslope" _ (by decide)

/-! ## C7 — deterministic extraction: line qualification and order -/

/-- The inner line loop is a first-hit search over the lines. -/
theorem linesFirst_eq_findSome (speed count : ℕ)
    (lines : List (List Char)) :
    linesFirst speed count lines =
      lines.findSome? (processLine speed count) := by
  induction lines with
  | nil => rfl
  | cons l ls ih =>
    rw [List.findSome?_cons]
    unfold linesFirst
    cases processLine speed count l with
    | some v => rfl
    | none => exact ih

/-- The nested snippet/line loops of `_extract_speed_values` are a
first-hit search over all lines of all snippets in snippet order. -/
theorem extract_eq_findSome (speed count : ℕ)
    (snippets : List (List Char)) :
    extractSpeedValues speed count snippets =
      (snippets.flatMap splitlinesPy).findSome? (processLine speed count) := by
  induction snippets with
  | nil => rfl
  | cons s rest ih =>
    rw [List.flatMap_cons, List.findSome?_append, ← ih,
      ← linesFirst_eq_findSome]
    cases h : linesFirst speed count (splitlinesPy s) with
    | some v => simp [extractSpeedValues, h]
    | none => simp [extractSpeedValues, h]

/-- A line yields values exactly when `\b<speed>\b` matches, the first
numeric token's integer part (truncation, `int(float(tokens[0]))`)
equals the speed, and at least `count` further tokens follow; the
values are the next `count` tokens as exact decimals. -/
theorem processLine_eq_some_iff (speed count : ℕ) (line : List Char)
    (vs : List ℚ) :
    processLine speed count line = some vs ↔
      (containsStandalone (natDigits speed) line = true ∧
        ∃ t0 ts, findNumTokens line = t0 :: ts ∧ tokenIntPart t0 = speed ∧
          count ≤ ts.length ∧ vs = (ts.take count).map tokenToRat) := by
  unfold processLine
  cases hcb : containsStandalone (natDigits speed) line with
  | false =>
    simp [hcb]
  | true =>
    simp only [hcb, Bool.not_true, Bool.false_eq_true, if_false]
    cases hts : findNumTokens line with
    | nil => simp
    | cons t0 ts =>
      show (if tokenIntPart t0 ≠ speed then none
        else if (t0 :: ts).length < count + 1 then none
        else some ((ts.take count).map tokenToRat)) = some vs ↔ _
      by_cases hint : tokenIntPart t0 = speed
      · rw [if_neg (not_not_intro hint)]
        by_cases hlt : (t0 :: ts).length < count + 1
        · rw [if_pos hlt]
          simp only [List.length_cons] at hlt
          constructor
          · intro h
            exact absurd h (by simp)
          · rintro ⟨-, t0x, tsx, htsx, -, hcnt, -⟩
            injection htsx with e1 e2
            subst e2
            omega
        · rw [if_neg hlt]
          simp only [List.length_cons] at hlt
          have hle : count ≤ ts.length := by omega
          constructor
          · intro h
            injection h with h'
            exact ⟨by trivial, t0, ts, rfl, hint, hle, h'.symm⟩
          · rintro ⟨-, t0x, tsx, htsx, -, -, hvs⟩
            injection htsx with e1 e2
            subst e1
            subst e2
            exact congrArg some hvs.symm
      · rw [if_pos hint]
        constructor
        · intro h
          exact absurd h (by simp)
        · rintro ⟨-, t0x, tsx, htsx, hintx, -, -⟩
          injection htsx with e1 e2
          subst e1
          exact absurd hintx hint

/-- C7 (amended): extraction is a first-hit search in snippet order
over all lines (no cross-line scoring); a line qualifies when the
speed occurs as a standalone token and the truncated integer part of
its first numeric token equals the speed — not when the first token
itself equals the speed — with at least `valueCount` further tokens;
exactly the next `valueCount` tokens are returned as floats. -/
theorem c7_first_qualifying_line_wins :
    (∀ (speed count : ℕ) (snippets : List (List Char)),
      extractSpeedValues speed count snippets =
        (snippets.flatMap splitlinesPy).findSome?
          (processLine speed count)) ∧
    (∀ (speed count : ℕ) (line : List Char) (vs : List ℚ),
      processLine speed count line = some vs ↔
        (containsStandalone (natDigits speed) line = true ∧
          ∃ t0 ts, findNumTokens line = t0 :: ts ∧
            tokenIntPart t0 = speed ∧ count ≤ ts.length ∧
            vs = (ts.take count).map tokenToRat)) ∧
    (∀ (speed count : ℕ) (snippets : List (List Char)) (vs : List ℚ),
      extractSpeedValues speed count snippets = some vs →
      vs.length = count) := by
  refine ⟨extract_eq_findSome, processLine_eq_some_iff, ?_⟩
  intro speed count snippets vs h
  rw [extract_eq_findSome] at h
  obtain ⟨line, _, hline⟩ := List.exists_of_findSome?_eq_some h
  obtain ⟨-, t0, ts, -, -, hcnt, hvs⟩ :=
    (processLine_eq_some_iff speed count line vs).mp hline
  subst hvs
  simp only [List.length_map, List.length_take]
  exact min_eq_left hcnt

/-- Witness for C7: the two-column table row `60 151 136` yields
exactly two values, as the length clause of the theorem confirms. -/
theorem c7_first_qualifying_line_wins_witness :
    extractSpeedValues 60 2 ["Design Speed\n60 151 136\n".data] =
      some [tokenToRat "151".data, tokenToRat "136".data] ∧
    (extractSpeedValues 60 2 ["Design Speed\n60 151 136\n".data]).map
      List.length = some 2 := by
  refine ⟨rfl, ?_⟩
  show some ([tokenToRat "151".data, tokenToRat "136".data].length) = some 2
  exact congrArg some (c7_first_qualifying_line_wins.2.2 60 2
    ["Design Speed\n60 151 136\n".data]
    [tokenToRat "151".data, tokenToRat "136".data] rfl)

/-- C7 counterexample: the claim as stated says a line whose first
numeric token differs from the speed is rejected.  On the line
`"60.9 100"` with speed 60 the first numeric token is `60.9`, whose
value differs from 60, yet the code accepts the line (because
`int(float("60.9")) == 60` and `\b60\b` matches inside `60.9`) and
returns `[100.0]` from it. -/
theorem c7_truncated_first_token_accepted :
    extractSpeedValues 60 1 ["60.9 100".data] = some [100] ∧
    findNumTokens "60.9 100".data = ["60.9".data, "100".data] ∧
    tokenToRat "60.9".data ≠ (60 : ℚ) ∧
    tokenIntPart "60.9".data = 60 := by
  refine ⟨?_, rfl, ?_, rfl⟩
  · rw [show extractSpeedValues 60 1 ["60.9 100".data] =
      some [tokenToRat "100".data] from rfl]
    rw [show tokenToRat "100".data = ((100 : ℕ) : ℚ) + 0 from rfl]
    norm_num
  · rw [show tokenToRat "60.9".data =
      ((60 : ℕ) : ℚ) + ((9 : ℕ) : ℚ) / (10 : ℚ) ^ 1 from rfl]
    norm_num

end RoadScript
